import Mathlib

/-
Shallow embedding of the DHT sensor library (dht.h / dht.c).

The C sources are translated as follows:
  - machine integers: the C type unsigned is modelled as Nat together with
    the wrapping subtraction usub below (unsigned subtraction modulo 2^32);
    the C type int used for the edge cursor is modelled as Int.
  - struct Dht: the fixed 84-slot edge array together with the surrounding
    memory is modelled as a total function Int -> DhtEdge; the buffer itself
    occupies indices 0..83, and a read at any other index is a read outside
    the buffer (C undefined behaviour, here a read of an unconstrained slot).
  - the hardware clock dht_get_microseconds() is passed explicitly as a Nat
    argument named now; the interrupt-driven edge delivery during the
    acknowledge wait of dht_start_read is modelled as an explicit list of
    (level, timestamp) arrivals folded through dht_handle_data_line_edge.
  - dht_notify_sequence_completed is modelled as the Bool component returned
    by dht_handle_data_line_edge (true exactly when the notification fires).
  - dht_check_status and dht_get_data mutate no device state in the C code;
    they are modelled as pure functions of the state (dht_get_data threads
    its out-parameter struct DhtData explicitly).
-/

/-- C unsigned subtraction: both operands truncated to 32 bits, difference
taken modulo 2^32. -/
def usub (a b : Nat) : Nat :=
  ((a % 2 ^ 32) + 2 ^ 32 - (b % 2 ^ 32)) % 2 ^ 32

/-- enum DhtDataLevel from dht.h: DHT_DATA_LOW = 0, DHT_DATA_HIGH = 1. -/
inductive DhtDataLevel
  | low
  | high
deriving DecidableEq

/-- struct DhtEdge from dht.h: a timestamped data-line level sample. -/
structure DhtEdge where
  timestamp : Nat
  level : DhtDataLevel
deriving DecidableEq

/-- enum DhtStatus from dht.h. -/
inductive DhtStatus
  | ok
  | noData
  | busy
  | dataReady
  | errTimeout
  | errSequenceInvalid
  | errCrc
deriving DecidableEq

/-- The integer value of each enum DhtStatus constant in dht.h
(DHT_OK = 0, DHT_NO_DATA = 1, DHT_BUSY = 2, DHT_DATA_READY = 4,
DHT_ERR_TIMEOUT = 8, DHT_ERR_SEQUENCE_INVALID = 16, DHT_ERR_CRC = 32). -/
def DhtStatus.toC : DhtStatus → Int
  | .ok => 0
  | .noData => 1
  | .busy => 2
  | .dataReady => 4
  | .errTimeout => 8
  | .errSequenceInvalid => 16
  | .errCrc => 32

/-- DHT_EDGES_NUMBER from dht.h: 84 edges per transmission sequence. -/
def DHT_EDGES_NUMBER : Int := 84

/-- DHT_NO_DATA_AVAILABLE from dht.c: the sentinel cursor value -1. -/
def DHT_NO_DATA_AVAILABLE : Int := -1

/-- DHT_NEW_EDGE_TIMEOUT_US from dht.c: max interval between two edges. -/
def DHT_NEW_EDGE_TIMEOUT_US : Nat := 100

/-- DHT_ACK_TIMEOUT_US from dht.c (40 us plus reserve). -/
def DHT_ACK_TIMEOUT_US : Nat := 60

/-- DHT_DATA_BIT_0 from dht.c. -/
def DHT_DATA_BIT_0 : Nat := 0

/-- DHT_DATA_BIT_1 from dht.c. -/
def DHT_DATA_BIT_1 : Nat := 1

/-- DHT_DATA_BIT_0_DURATION_US_MAX from dht.c (28 us plus reserve). -/
def DHT_DATA_BIT_0_DURATION_US_MAX : Nat := 35

/-- DHT_DATA_BIT_1_DURATION_US_MAX from dht.c (70 us plus reserve). -/
def DHT_DATA_BIT_1_DURATION_US_MAX : Nat := 80

/-- DHT_DATA_EDGES_PER_BYTE from dht.c. -/
def DHT_DATA_EDGES_PER_BYTE : Nat := 16

/-- DHT_INTEGRAL_RH_EDGES_INDEX from dht.c. -/
def DHT_INTEGRAL_RH_EDGES_INDEX : Int := 2

/-- DHT_DECIMAL_RH_EDGES_INDEX from dht.c (window never decoded). -/
def DHT_DECIMAL_RH_EDGES_INDEX : Int := 18

/-- DHT_INTEGRAL_T_EDGES_INDEX from dht.c. -/
def DHT_INTEGRAL_T_EDGES_INDEX : Int := 34

/-- DHT_DECIMAL_T_EDGES_INDEX from dht.c (window never decoded). -/
def DHT_DECIMAL_T_EDGES_INDEX : Int := 50

/-- DHT_CHECKSUM_EDGES_INDEX from dht.c. -/
def DHT_CHECKSUM_EDGES_INDEX : Int := 66

/-- DHT_MOST_SIGNIFICANT_BIT_OFFSET from dht.c. -/
def DHT_MOST_SIGNIFICANT_BIT_OFFSET : Nat := 7

/-- struct Dht from dht.h: edge buffer (indices 0..83 are the declared
array; other indices model out-of-buffer memory) plus the int cursor. -/
structure Dht where
  edges : Int → DhtEdge
  current_edge : Int

/-- struct DhtData from dht.h: two integral/decimal reading pairs and the
checksum byte, each a uint8_t modelled as Nat. -/
structure DhtData where
  humidity_integral : Nat
  humidity_decimal : Nat
  temperature_integral : Nat
  temperature_decimal : Nat
  crc : Nat
deriving DecidableEq

/-- dht_init from dht.c: sets current_edge to DHT_NO_DATA_AVAILABLE. -/
def dht_init (self : Dht) : Dht :=
  { self with current_edge := DHT_NO_DATA_AVAILABLE }

/-- dht_abort_read from dht.c. The C source assigns the enum DhtStatus
constant DHT_NO_DATA (integer value 1) to current_edge, not the sentinel
DHT_NO_DATA_AVAILABLE (-1); the embedding reproduces that assignment
exactly. The interrupt disable call has no modelled state. -/
def dht_abort_read (self : Dht) : Dht :=
  { self with current_edge := DhtStatus.noData.toC }

/-- dht_check_status from dht.c. now is the value dht_get_microseconds()
returns during the call. Note that at current_edge = 0 the read of
edges[current_edge - 1] falls at buffer index -1. -/
def dht_check_status (self : Dht) (now : Nat) : DhtStatus :=
  if self.current_edge = DHT_NO_DATA_AVAILABLE then
    DhtStatus.noData
  else if self.current_edge < DHT_EDGES_NUMBER then
    let last_edge_timestamp := (self.edges (self.current_edge - 1)).timestamp
    let microseconds_elapsed := usub now last_edge_timestamp
    if microseconds_elapsed > DHT_NEW_EDGE_TIMEOUT_US then
      DhtStatus.errTimeout
    else
      DhtStatus.busy
  else
    DhtStatus.dataReady

/-- dht_handle_data_line_edge from dht.c. level is the value returned by
dht_get_data_line_level and now the value of dht_get_microseconds() at the
interrupt. The Bool result is true exactly when the C code calls
dht_notify_sequence_completed. -/
def dht_handle_data_line_edge (self : Dht) (level : DhtDataLevel) (now : Nat) :
    Dht × Bool :=
  if (self.current_edge = 0 ∧ level = DhtDataLevel.low) ∨
      (self.current_edge > 0 ∧ self.current_edge < DHT_EDGES_NUMBER) then
    let edges2 : Int → DhtEdge := fun i =>
      if i = self.current_edge then { timestamp := now, level := level }
      else self.edges i
    let next : Dht := { edges := edges2, current_edge := self.current_edge + 1 }
    (next, if next.current_edge = DHT_EDGES_NUMBER then true else false)
  else
    (self, false)

/-- dht_start_read from dht.c. The hardware line configuration, interrupt
arming and the 18-20 ms start pulse have no modelled state. arrivals lists
the (level, timestamp) edges the interrupt context delivers to
dht_handle_data_line_edge before the DHT_ACK_TIMEOUT_US acknowledge wait in
dht_wait_for_ack gives up; the wait returns DHT_ERR_TIMEOUT exactly when
the cursor is still 0 afterwards, in which case dht_start_read aborts. -/
def dht_start_read (self : Dht) (arrivals : List (DhtDataLevel × Nat)) :
    DhtStatus × Dht :=
  let armed : Dht := { dht_abort_read self with current_edge := 0 }
  let after : Dht :=
    arrivals.foldl (fun t a => (dht_handle_data_line_edge t a.1 a.2).1) armed
  if after.current_edge = 0 then
    (DhtStatus.errTimeout, dht_abort_read after)
  else
    (DhtStatus.ok, after)

/-- dht_get_edges_count from dht.c: current_edge if positive else 0,
converted to unsigned. -/
def dht_get_edges_count (self : Dht) : Nat :=
  if self.current_edge > 0 then self.current_edge.toNat else 0

/-- dht_status_to_str from dht.c, including the copy of the DHT_NO_DATA
string in the DHT_BUSY case. The C default branch ("DHT_STATUS_UNKNOWN") is
unreachable for the seven enum constants and has no counterpart here. -/
def dht_status_to_str : DhtStatus → String
  | .ok => "DHT_OK"
  | .noData => "DHT_NO_DATA"
  | .busy => "DHT_NO_DATA"
  | .dataReady => "DHT_DATA_READY"
  | .errTimeout => "DHT_ERR_TIMEOUT"
  | .errSequenceInvalid => "DHT_ERR_SEQUENCE_INVALID"
  | .errCrc => "DHT_ERR_CRC"

/-- The loop body of dht_decode_byte from dht.c. The C loop runs i over
0, 2, ..., 14 (DHT_DATA_EDGES_PER_BYTE / 2 = 8 iterations) with bit_offset
counting down from DHT_MOST_SIGNIFICANT_BIT_OFFSET; here the remaining
iteration count drives the structural recursion while i and bit_offset
advance exactly as in the source. acc is the byte accumulated so far, also
returned (partially written) on the early error returns, matching the C
write-through-pointer semantics of data_byte. -/
def dht_decode_byte_go (edges : Nat → DhtEdge) :
    Nat → Nat → Nat → Nat → DhtStatus × Nat
  | _, _, acc, 0 => (DhtStatus.ok, acc)
  | i, bit_offset, acc, iters + 1 =>
    if (edges i).level ≠ DhtDataLevel.low ∨
        (edges (i + 1)).level ≠ DhtDataLevel.high then
      (DhtStatus.errSequenceInvalid, acc)
    else
      let data_bit_duration_us :=
        usub (edges (i + 2)).timestamp (edges (i + 1)).timestamp
      if data_bit_duration_us > DHT_DATA_BIT_1_DURATION_US_MAX then
        (DhtStatus.errTimeout, acc)
      else
        let bit : Nat :=
          if data_bit_duration_us > DHT_DATA_BIT_0_DURATION_US_MAX then
            DHT_DATA_BIT_1
          else
            DHT_DATA_BIT_0
        dht_decode_byte_go edges (i + 2) (bit_offset - 1)
          (acc ||| (bit <<< bit_offset)) iters

/-- dht_decode_byte from dht.c: decode one byte from a 16-edge window
(plus the first edge after it, used for the last bit duration). -/
def dht_decode_byte (edges : Nat → DhtEdge) : DhtStatus × Nat :=
  dht_decode_byte_go edges 0 DHT_MOST_SIGNIFICANT_BIT_OFFSET 0
    (DHT_DATA_EDGES_PER_BYTE / 2)

/-- dht_calculate_data_crc from dht.c. -/
def dht_calculate_data_crc (data : DhtData) : Nat :=
  (data.humidity_integral + data.humidity_decimal +
    data.temperature_integral + data.temperature_decimal) &&& 0xFF

/-- The C pointer expression self->edges + off, viewed from the decoder as
a window starting at buffer index off. -/
def window (self : Dht) (off : Int) : Nat → DhtEdge :=
  fun k => self.edges (off + (k : Int))

/-- dht_get_data from dht.c. data is the caller-provided out parameter,
threaded explicitly; every early return hands back the fields written so
far, as the C code leaves them in the caller struct. The decode status of
the checksum byte is assigned in the C source but never examined before
the checksum comparison; the embedding mirrors that by dropping the first
component of the checksum decode result. -/
def dht_get_data (self : Dht) (now : Nat) (data : DhtData) :
    DhtStatus × DhtData :=
  let status := dht_check_status self now
  if status ≠ DhtStatus.dataReady then
    (status, data)
  else
    let r1 := dht_decode_byte (window self DHT_INTEGRAL_RH_EDGES_INDEX)
    let data1 := { data with humidity_integral := r1.2 }
    if r1.1 ≠ DhtStatus.ok then
      (r1.1, data1)
    else
      let data2 := { data1 with humidity_decimal := 0 }
      let r2 := dht_decode_byte (window self DHT_INTEGRAL_T_EDGES_INDEX)
      let data3 := { data2 with temperature_integral := r2.2 }
      if r2.1 ≠ DhtStatus.ok then
        (r2.1, data3)
      else
        let data4 := { data3 with temperature_decimal := 0 }
        let r3 := dht_decode_byte (window self DHT_CHECKSUM_EDGES_INDEX)
        let data5 := { data4 with crc := r3.2 }
        if dht_calculate_data_crc data5 ≠ data5.crc then
          (DhtStatus.errCrc, data5)
        else
          (DhtStatus.ok, data5)

/-- Duration of data bit k of a byte window, as the decoder computes it:
unsigned difference between the timestamps of the edge after the bit and
the high edge of the bit. -/
def bitDur (edges : Nat → DhtEdge) (k : Nat) : Nat :=
  usub (edges (2 * k + 2)).timestamp (edges (2 * k + 1)).timestamp

/-- Value of data bit k of a byte window per the documented thresholds:
1 when the high pulse lasts longer than DHT_DATA_BIT_0_DURATION_US_MAX,
else 0. -/
def bitVal (edges : Nat → DhtEdge) (k : Nat) : Nat :=
  if bitDur edges k > DHT_DATA_BIT_0_DURATION_US_MAX then 1 else 0

/-- Bit k of a byte window follows the documented pattern: a Low edge,
then a High edge whose high duration is at most
DHT_DATA_BIT_1_DURATION_US_MAX. -/
def tripletOkAt (edges : Nat → DhtEdge) (k : Nat) : Prop :=
  (edges (2 * k)).level = DhtDataLevel.low ∧
  (edges (2 * k + 1)).level = DhtDataLevel.high ∧
  bitDur edges k ≤ DHT_DATA_BIT_1_DURATION_US_MAX

instance (edges : Nat → DhtEdge) (k : Nat) : Decidable (tripletOkAt edges k) := by
  unfold tripletOkAt
  exact inferInstance

/-- A byte window follows the documented level/duration pattern for all
eight of its bits. -/
def windowOk (edges : Nat → DhtEdge) : Prop :=
  ∀ k, k < 8 → tripletOkAt edges k

instance (edges : Nat → DhtEdge) : Decidable (windowOk edges) := by
  unfold windowOk
  exact inferInstance

/-- The low n bits of the byte a window encodes, most significant bit
first: bit k of the byte (k counted MSB first, so k = 8 - n .. 7 here) is
placed at position 7 - k. -/
def byteBitsOr (edges : Nat → DhtEdge) : Nat → Nat
  | 0 => 0
  | n + 1 => (bitVal edges (7 - n)) <<< n ||| byteBitsOr edges n

/-- The byte a window encodes, decoded MSB first per the documented
pattern. -/
def byteFromWindow (edges : Nat → DhtEdge) : Nat :=
  byteBitsOr edges 8

/-- Specification-side byte decode, written from the words of the claims:
for each of the 8 bits (most significant first), examine the triplet of
consecutive edges (e0, e1, e2) at the bit offset; e0 must be Low and e1
High, else sequence invalid; a bit duration above
DHT_DATA_BIT_1_DURATION_US_MAX is a timeout; otherwise the bit is 1 when
the duration exceeds DHT_DATA_BIT_0_DURATION_US_MAX, the bits accumulating
MSB to LSB. The argument is the number of bits still to process, so bit
index k runs from 8 - n up to 7. -/
def dhtDecodeByteSpecGo (edges : Nat → DhtEdge) : Nat → Except DhtStatus Nat
  | 0 => Except.ok 0
  | n + 1 =>
    let k := 7 - n
    if (edges (2 * k)).level = DhtDataLevel.low ∧
        (edges (2 * k + 1)).level = DhtDataLevel.high then
      if bitDur edges k > DHT_DATA_BIT_1_DURATION_US_MAX then
        Except.error DhtStatus.errTimeout
      else
        match dhtDecodeByteSpecGo edges n with
        | Except.ok rest => Except.ok ((bitVal edges k) <<< (7 - k) ||| rest)
        | Except.error e => Except.error e
    else
      Except.error DhtStatus.errSequenceInvalid

/-- Specification-side byte decode over all 8 bits. -/
def dhtDecodeByteSpec (edges : Nat → DhtEdge) : Except DhtStatus Nat :=
  dhtDecodeByteSpecGo edges 8

/-- Bit k (MSB first) of byte b. -/
def bitOf (b k : Nat) : Nat :=
  (b >>> (7 - k)) &&& 1

/-- Duration in microseconds between edge i and edge i + 1 of a reference
timeline carrying the five given bytes: 80 us for the two acknowledge
phases, 50 us for each low phase, and 27 us or 70 us for the high phase of
a 0 or 1 data bit. -/
def durAfter (bytes : List Nat) (i : Nat) : Nat :=
  if i < 2 then 80
  else if i % 2 = 0 then 50
  else if bitOf (bytes.getD ((i - 3) / 2 / 8) 0) (((i - 3) / 2) % 8) = 1 then 70
  else 27

/-- Timestamp of edge i of the reference timeline (first edge at 1000). -/
def tsAt (bytes : List Nat) : Nat → Nat
  | 0 => 1000
  | i + 1 => tsAt bytes i + durAfter bytes i

/-- A complete captured device state for the five given bytes: 84 edges
alternating Low/High starting at the acknowledge falling edge, with the
reference timings above, cursor at capacity. -/
def mkDht (bytes : List Nat) : Dht :=
  { edges := fun i =>
      if 0 ≤ i ∧ i < 84 then
        { timestamp := tsAt bytes i.toNat
          level := if i.toNat % 2 = 0 then DhtDataLevel.low else DhtDataLevel.high }
      else
        { timestamp := 0, level := DhtDataLevel.high }
    current_edge := 84 }

/-- Flip the level of the edge at buffer index i to High, keeping its
timestamp. -/
def corrupt (s : Dht) (i : Int) : Dht :=
  { s with edges := fun j =>
      if j = i then { timestamp := (s.edges j).timestamp, level := DhtDataLevel.high }
      else s.edges j }

/-- A device state with an all-constant edge buffer and cursor 0. -/
def dht0 : Dht :=
  { edges := fun _ => { timestamp := 0, level := DhtDataLevel.low }
    current_edge := 0 }

/-- Same in-buffer contents as dht0, but a different timestamp at buffer
index -1, one slot before the start of the edge array. -/
def dhtOobProbe : Dht :=
  { edges := fun i =>
      if i = -1 then { timestamp := 200, level := DhtDataLevel.low }
      else { timestamp := 0, level := DhtDataLevel.low }
    current_edge := 0 }

/-- The documented scenario timeline: humidity integral 44, humidity
decimal 0, temperature integral 25, temperature decimal 0, checksum
(44 + 0 + 25 + 0) mod 256 = 69. -/
def dhtScenario : Dht :=
  mkDht [44, 0, 25, 0, 69]

/-- An all-zero out-parameter struct. -/
def dhtData0 : DhtData :=
  { humidity_integral := 0
    humidity_decimal := 0
    temperature_integral := 0
    temperature_decimal := 0
    crc := 0 }

/-- dht_read from dht.c: start a sequence, wait for completion, decode.
The edges delivered by the interrupt context during the acknowledge wait
and during the completion wait are passed as two explicit lists. -/
def dht_read (self : Dht) (ackArrivals laterArrivals : List (DhtDataLevel × Nat))
    (now : Nat) (data : DhtData) : DhtStatus × Dht × DhtData :=
  let r := dht_start_read self ackArrivals
  if r.1 ≠ DhtStatus.ok then
    (r.1, r.2, data)
  else
    let done : Dht :=
      laterArrivals.foldl (fun t a => (dht_handle_data_line_edge t a.1 a.2).1) r.2
    let g := dht_get_data done now data
    (g.1, done, g.2)

lemma check_status_dataReady (s : Dht) (now : Nat) (h : s.current_edge = 84) :
    dht_check_status s now = DhtStatus.dataReady := by
  unfold dht_check_status
  rw [h]
  norm_num [DHT_NO_DATA_AVAILABLE, DHT_EDGES_NUMBER]

lemma specGo_ok_of_windowOk (edges : Nat → DhtEdge) (hw : windowOk edges) :
    ∀ n, n ≤ 8 → dhtDecodeByteSpecGo edges n = Except.ok (byteBitsOr edges n) := by
  intro n
  induction n with
  | zero => intro _; rfl
  | succ n ih =>
    intro hn
    have hn7 : n ≤ 7 := by omega
    have htrip := hw (7 - n) (by omega)
    obtain ⟨h0, h1, h2⟩ := htrip
    simp only [dhtDecodeByteSpecGo]
    rw [if_pos ⟨h0, h1⟩, if_neg (by omega), ih (by omega)]
    have h7n : 7 - (7 - n) = n := by omega
    rw [h7n]
    rfl

lemma specGo_error_mem (edges : Nat → DhtEdge) :
    ∀ n er, dhtDecodeByteSpecGo edges n = Except.error er →
      er = DhtStatus.errSequenceInvalid ∨ er = DhtStatus.errTimeout := by
  intro n
  induction n with
  | zero => intro er h; cases h
  | succ n ih =>
    intro er h
    simp only [dhtDecodeByteSpecGo] at h
    split at h
    · split at h
      · cases h
        right
        rfl
      · cases hsg : dhtDecodeByteSpecGo edges n with
        | ok rest => rw [hsg] at h; cases h
        | error e =>
          rw [hsg] at h
          injection h with h2
          subst h2
          exact ih _ hsg
    · cases h
      left
      rfl

lemma go_spec_ok (edges : Nat → DhtEdge) :
    ∀ n, n ≤ 8 → ∀ acc rest, dhtDecodeByteSpecGo edges n = Except.ok rest →
      dht_decode_byte_go edges (2 * (8 - n)) (n - 1) acc n =
        (DhtStatus.ok, acc ||| rest) := by
  intro n
  induction n with
  | zero =>
    intro _ acc rest h
    injection h with h
    subst h
    simp [dht_decode_byte_go, Nat.or_zero]
  | succ n ih =>
    intro hn acc rest h
    have hn7 : n ≤ 7 := by omega
    simp only [dhtDecodeByteSpecGo] at h
    split at h
    case isTrue hc =>
      split at h
      case isTrue => cases h
      case isFalse hdur =>
        cases hsg : dhtDecodeByteSpecGo edges n with
        | error e => rw [hsg] at h; cases h
        | ok rest0 =>
          rw [hsg] at h
          injection h with h
          subst h
          simp only [dht_decode_byte_go]
          have e1 : 8 - (n + 1) = 7 - n := by omega
          rw [e1]
          rw [if_neg (by simp [hc.1, hc.2])]
          simp only [bitDur] at hdur
          rw [if_neg hdur]
          have e2 : 2 * (7 - n) + 2 = 2 * (8 - n) := by omega
          have e3 : n + 1 - 1 = n := by omega
          rw [e3]
          have ebit :
              (if usub (edges (2 * (7 - n) + 2)).timestamp
                  (edges (2 * (7 - n) + 1)).timestamp >
                  DHT_DATA_BIT_0_DURATION_US_MAX then DHT_DATA_BIT_1
                else DHT_DATA_BIT_0) = bitVal edges (7 - n) := by
            simp only [bitVal, bitDur, DHT_DATA_BIT_0, DHT_DATA_BIT_1]
          rw [ebit, e2, ih (by omega) (acc ||| bitVal edges (7 - n) <<< n) rest0 hsg]
          have h7n : 7 - (7 - n) = n := by omega
          rw [h7n, Nat.or_assoc]
    case isFalse => cases h

lemma go_spec_err (edges : Nat → DhtEdge) :
    ∀ n, n ≤ 8 → ∀ acc er, dhtDecodeByteSpecGo edges n = Except.error er →
      (dht_decode_byte_go edges (2 * (8 - n)) (n - 1) acc n).1 = er := by
  intro n
  induction n with
  | zero => intro _ acc er h; cases h
  | succ n ih =>
    intro hn acc er h
    have hn7 : n ≤ 7 := by omega
    simp only [dhtDecodeByteSpecGo] at h
    split at h
    case isTrue hc =>
      split at h
      case isTrue hdur =>
        cases h
        simp only [dht_decode_byte_go]
        have e1 : 8 - (n + 1) = 7 - n := by omega
        rw [e1]
        rw [if_neg (by simp [hc.1, hc.2])]
        simp only [bitDur] at hdur
        rw [if_pos hdur]
      case isFalse hdur =>
        cases hsg : dhtDecodeByteSpecGo edges n with
        | ok rest0 => rw [hsg] at h; cases h
        | error e =>
          rw [hsg] at h
          cases h
          simp only [dht_decode_byte_go]
          have e1 : 8 - (n + 1) = 7 - n := by omega
          rw [e1]
          rw [if_neg (by simp [hc.1, hc.2])]
          simp only [bitDur] at hdur
          rw [if_neg hdur]
          have e2 : 2 * (7 - n) + 2 = 2 * (8 - n) := by omega
          have e3 : n + 1 - 1 = n := by omega
          rw [e3, e2]
          exact ih (by omega) _ er hsg
    case isFalse hc =>
      cases h
      simp only [dht_decode_byte_go]
      have e1 : 8 - (n + 1) = 7 - n := by omega
      rw [e1]
      rw [if_pos]
      rcases not_and_or.mp hc with h | h
      · exact Or.inl h
      · exact Or.inr h

lemma decode_eq_go (edges : Nat → DhtEdge) :
    dht_decode_byte edges = dht_decode_byte_go edges (2 * (8 - 8)) (8 - 1) 0 8 := rfl

lemma decode_ok_of_windowOk (edges : Nat → DhtEdge) (hw : windowOk edges) :
    dht_decode_byte edges = (DhtStatus.ok, byteFromWindow edges) := by
  rw [decode_eq_go,
    go_spec_ok edges 8 (by omega) 0 (byteFromWindow edges)
      (specGo_ok_of_windowOk edges hw 8 (by omega)), Nat.zero_or]

lemma specGo_seqInvalid (edges : Nat → DhtEdge) :
    ∀ n, n ≤ 8 → ∀ kbad, 8 - n ≤ kbad → kbad < 8 →
      (∀ j, 8 - n ≤ j → j < kbad → tripletOkAt edges j) →
      ¬ ((edges (2 * kbad)).level = DhtDataLevel.low ∧
          (edges (2 * kbad + 1)).level = DhtDataLevel.high) →
      dhtDecodeByteSpecGo edges n = Except.error DhtStatus.errSequenceInvalid := by
  intro n
  induction n with
  | zero => intro _ kbad h1 h2 _ _; omega
  | succ n ih =>
    intro hn kbad h1 h2 hpre hbad
    have hn7 : n ≤ 7 := by omega
    simp only [dhtDecodeByteSpecGo]
    by_cases hk : kbad = 7 - n
    · subst hk
      rw [if_neg hbad]
    · have hgt : 7 - n < kbad := by omega
      have htrip := hpre (7 - n) (by omega) hgt
      obtain ⟨h0, hh1, h2d⟩ := htrip
      rw [if_pos ⟨h0, hh1⟩, if_neg (by omega),
        ih (by omega) kbad (by omega) h2
          (fun j hj1 hj2 => hpre j (by omega) hj2) hbad]

lemma decode_seqInvalid (edges : Nat → DhtEdge) (kbad : Nat) (hk : kbad < 8)
    (hpre : ∀ j, j < kbad → tripletOkAt edges j)
    (hbad : ¬ ((edges (2 * kbad)).level = DhtDataLevel.low ∧
        (edges (2 * kbad + 1)).level = DhtDataLevel.high)) :
    (dht_decode_byte edges).1 = DhtStatus.errSequenceInvalid := by
  rw [decode_eq_go]
  exact go_spec_err edges 8 (by omega) 0 DhtStatus.errSequenceInvalid
    (specGo_seqInvalid edges 8 (by omega) kbad (by omega) hk
      (fun j _ hj => hpre j hj) hbad)

/-- C2: The claim says that after dht_abort_read - directly or on the
acknowledge timeout inside dht_start_read - the cursor equals the no-data
sentinel DHT_NO_DATA_AVAILABLE (-1) and dht_check_status returns NoData.
The code instead assigns the enum DhtStatus constant DHT_NO_DATA, whose
integer value is 1, so after an abort the cursor is 1, not -1, and
dht_check_status reports Busy (or ErrTimeout), never NoData; the
ErrTimeout return value of dht_start_read itself does hold. This theorem
evaluates the code at a failing input: a freshly initialized device. -/
theorem c2_abort_read_no_data_bug :
    (dht_abort_read (dht_init dht0)).current_edge = 1 ∧
    (dht_abort_read (dht_init dht0)).current_edge ≠ DHT_NO_DATA_AVAILABLE ∧
    dht_check_status (dht_abort_read (dht_init dht0)) 0 = DhtStatus.busy ∧
    dht_check_status (dht_abort_read (dht_init dht0)) 0 ≠ DhtStatus.noData ∧
    (dht_start_read (dht_init dht0) []).1 = DhtStatus.errTimeout ∧
    (dht_start_read (dht_init dht0) []).2.current_edge = 1 ∧
    (dht_start_read (dht_init dht0) []).2.current_edge ≠ DHT_NO_DATA_AVAILABLE ∧
    dht_check_status (dht_start_read (dht_init dht0) []).2 0 ≠ DhtStatus.noData := by
  decide

/-- C3: For 0 <= current_edge < 84, dht_check_status returns Busy while
the elapsed time since the timestamp it reads at edges[current_edge - 1]
is at most DHT_NEW_EDGE_TIMEOUT_US and ErrTimeout once it exceeds it.
However, at current_edge = 0 the index current_edge - 1 is -1, one slot
before the start of the edge buffer, so the timestamp read is not an
in-bounds sample: two states with identical buffer contents at indices
0..83 and cursor 0 yield different results, differing only at index -1. -/
theorem c3_busy_timeout_and_oob_read :
    (∀ (s : Dht) (now : Nat), 0 ≤ s.current_edge → s.current_edge < 84 →
      dht_check_status s now =
        if usub now ((s.edges (s.current_edge - 1)).timestamp) > 100 then
          DhtStatus.errTimeout
        else
          DhtStatus.busy) ∧
    (∀ s : Dht, s.current_edge = 0 → s.current_edge - 1 < 0) ∧
    ((∀ i : Int, 0 ≤ i → i < 84 → dht0.edges i = dhtOobProbe.edges i) ∧
      dht0.current_edge = 0 ∧ dhtOobProbe.current_edge = 0 ∧
      dht_check_status dht0 50 ≠ dht_check_status dhtOobProbe 50) := by
  refine ⟨?_, ?_, ?_, rfl, rfl, by decide⟩
  · intro s now h0 h84
    unfold dht_check_status
    rw [if_neg (by simp only [DHT_NO_DATA_AVAILABLE]; omega),
      if_pos (by simp only [DHT_EDGES_NUMBER]; omega)]
    rfl
  · intro s h
    omega
  · intro i h1 h2
    have hne : ¬ i = -1 := by omega
    simp [dht0, dhtOobProbe, hne]

theorem c3_witness : dht_check_status dht0 50 = DhtStatus.busy :=
  (c3_busy_timeout_and_oob_read.1 dht0 50 (by decide) (by decide)).trans (by decide)

/-- C9: The claim says the human-readable status names are pairwise
distinct, in particular for Busy and NoData. The code maps DHT_BUSY to the
string "DHT_NO_DATA", the same string it returns for DHT_NO_DATA, so the
two collide; all other five statuses do get pairwise distinct names. This
theorem evaluates the code at the failing input DHT_BUSY. -/
theorem c9_status_name_collision :
    dht_status_to_str DhtStatus.busy = "DHT_NO_DATA" ∧
    dht_status_to_str DhtStatus.busy = dht_status_to_str DhtStatus.noData ∧
    List.Pairwise (fun a b => dht_status_to_str a ≠ dht_status_to_str b)
      [DhtStatus.ok, DhtStatus.noData, DhtStatus.dataReady,
        DhtStatus.errTimeout, DhtStatus.errSequenceInvalid, DhtStatus.errCrc] := by
  refine ⟨rfl, rfl, ?_⟩
  decide

/-- C10: dht_get_edges_count returns the cursor when it is positive and 0
otherwise - in particular 0 for the sentinel DHT_NO_DATA_AVAILABLE (-1),
because the C source guards the int-to-unsigned conversion with
current_edge > 0 - so under the cursor invariant current_edge <= 84 the
result always lies between 0 and 84. -/
theorem c10_edges_count_bounds (s : Dht) (h : s.current_edge ≤ 84) :
    (0 < s.current_edge → (dht_get_edges_count s : Int) = s.current_edge) ∧
    (s.current_edge ≤ 0 → dht_get_edges_count s = 0) ∧
    (s.current_edge = DHT_NO_DATA_AVAILABLE → dht_get_edges_count s = 0) ∧
    dht_get_edges_count s ≤ 84 := by
  unfold dht_get_edges_count
  refine ⟨?_, ?_, ?_, ?_⟩
  · intro hpos
    rw [if_pos hpos]
    omega
  · intro hle
    rw [if_neg (by omega)]
  · intro hsent
    simp only [DHT_NO_DATA_AVAILABLE] at hsent
    rw [if_neg (by omega)]
  · split
    · omega
    · omega

theorem c10_witness :
    dht_get_edges_count (dht_init dht0) = 0 ∧
    dht_get_edges_count (dht_init dht0) ≤ 84 := by
  have h := c10_edges_count_bounds (dht_init dht0) (by decide)
  exact ⟨h.2.2.1 rfl, h.2.2.2⟩

/-- C4: dht_handle_data_line_edge satisfies the record_edge contract: at
cursor 0 it records the (timestamp, level) sample only when the level is
Low and discards otherwise; for 0 < cursor < 84 it always records; at the
sentinel or at or above capacity it discards; and the completion
notification fires exactly on the call that takes the cursor from 83 to
84, hence exactly once per attempt (the timeline is frozen at 84, see the
C5 invariant). -/
theorem c4_record_edge_contract (s : Dht) (level : DhtDataLevel) (now : Nat) :
    (s.current_edge = 0 → level = DhtDataLevel.low →
      (dht_handle_data_line_edge s level now).1.current_edge = s.current_edge + 1 ∧
      (dht_handle_data_line_edge s level now).1.edges s.current_edge =
        { timestamp := now, level := level } ∧
      (∀ i : Int, i ≠ s.current_edge →
        (dht_handle_data_line_edge s level now).1.edges i = s.edges i)) ∧
    (s.current_edge = 0 → level ≠ DhtDataLevel.low →
      (dht_handle_data_line_edge s level now).1 = s ∧
      (dht_handle_data_line_edge s level now).2 = false) ∧
    (0 < s.current_edge → s.current_edge < 84 →
      (dht_handle_data_line_edge s level now).1.current_edge = s.current_edge + 1 ∧
      (dht_handle_data_line_edge s level now).1.edges s.current_edge =
        { timestamp := now, level := level } ∧
      (∀ i : Int, i ≠ s.current_edge →
        (dht_handle_data_line_edge s level now).1.edges i = s.edges i)) ∧
    (s.current_edge = DHT_NO_DATA_AVAILABLE ∨ 84 ≤ s.current_edge →
      (dht_handle_data_line_edge s level now).1 = s ∧
      (dht_handle_data_line_edge s level now).2 = false) ∧
    ((dht_handle_data_line_edge s level now).2 = true ↔ s.current_edge = 83) := by
  refine ⟨?_, ?_, ?_, ?_, ?_⟩
  · intro h0 hl
    unfold dht_handle_data_line_edge
    rw [if_pos (Or.inl ⟨h0, hl⟩)]
    refine ⟨rfl, by simp, ?_⟩
    intro i hi
    simp [hi]
  · intro h0 hl
    unfold dht_handle_data_line_edge
    rw [if_neg]
    · exact ⟨rfl, rfl⟩
    · rintro (⟨h1, h2⟩ | ⟨h1, h2⟩)
      · exact hl h2
      · omega
  · intro h1 h2
    unfold dht_handle_data_line_edge
    rw [if_pos (Or.inr ⟨h1, by simp only [DHT_EDGES_NUMBER]; omega⟩)]
    refine ⟨rfl, by simp, ?_⟩
    intro i hi
    simp [hi]
  · intro hd
    simp only [DHT_NO_DATA_AVAILABLE] at hd
    unfold dht_handle_data_line_edge
    rw [if_neg]
    · exact ⟨rfl, rfl⟩
    · simp only [DHT_EDGES_NUMBER]
      rintro (⟨h1, h2⟩ | ⟨h1, h2⟩) <;> omega
  · unfold dht_handle_data_line_edge
    by_cases hcond : (s.current_edge = 0 ∧ level = DhtDataLevel.low) ∨
        (s.current_edge > 0 ∧ s.current_edge < DHT_EDGES_NUMBER)
    · rw [if_pos hcond]
      simp only [DHT_EDGES_NUMBER] at hcond ⊢
      split
      · rename_i hh
        exact ⟨fun _ => by omega, fun _ => rfl⟩
      · rename_i hh
        exact ⟨fun habs => (nomatch habs),
          fun h83 => absurd (show s.current_edge + 1 = 84 by omega) hh⟩
    · rw [if_neg hcond]
      simp only [DHT_EDGES_NUMBER] at hcond
      exact ⟨fun habs => (nomatch habs),
        fun h83 => absurd (Or.inr ⟨by omega, by omega⟩) hcond⟩

theorem c4_witness :
    (dht_handle_data_line_edge dht0 DhtDataLevel.low 5).1.current_edge = 0 + 1 ∧
    (dht_handle_data_line_edge dht0 DhtDataLevel.low 5).1.edges 0 =
      { timestamp := 5, level := DhtDataLevel.low } := by
  have h := (c4_record_edge_contract dht0 DhtDataLevel.low 5).1 rfl rfl
  exact ⟨h.1, h.2.1⟩

lemma handle_edge_cursor_le (s : Dht) (level : DhtDataLevel) (now : Nat)
    (h : s.current_edge ≤ 84) :
    (dht_handle_data_line_edge s level now).1.current_edge ≤ 84 := by
  unfold dht_handle_data_line_edge
  split
  · rename_i hc
    simp only [DHT_EDGES_NUMBER] at hc
    simp only
    omega
  · exact h

lemma foldl_handle_cursor_le (arrivals : List (DhtDataLevel × Nat)) :
    ∀ s : Dht, s.current_edge ≤ 84 →
      (arrivals.foldl (fun t a => (dht_handle_data_line_edge t a.1 a.2).1)
        s).current_edge ≤ 84 := by
  induction arrivals with
  | nil => exact fun s h => h
  | cons a as ih =>
    intro s h
    exact ih _ (handle_edge_cursor_le s a.1 a.2 h)

/-- C5: the cursor never exceeds the capacity 84 under any of the
operations, and once it equals 84 the edge handler leaves the whole state
untouched (and raises no further completion notification) until
dht_start_read, dht_abort_read or dht_init explicitly resets the cursor;
dht_check_status and dht_get_data are read-only by construction of the
embedding, mirroring the C code, which writes no device field in them. -/
theorem c5_cursor_invariant :
    (∀ s : Dht, (dht_init s).current_edge = -1 ∧ (dht_init s).current_edge ≤ 84) ∧
    (∀ s : Dht, (dht_abort_read s).current_edge = 1 ∧
      (dht_abort_read s).current_edge ≤ 84) ∧
    (∀ (s : Dht) (arrivals : List (DhtDataLevel × Nat)),
      (dht_start_read s arrivals).2.current_edge ≤ 84) ∧
    (∀ (s : Dht) (level : DhtDataLevel) (now : Nat), s.current_edge ≤ 84 →
      (dht_handle_data_line_edge s level now).1.current_edge ≤ 84) ∧
    (∀ (s : Dht) (level : DhtDataLevel) (now : Nat), s.current_edge = 84 →
      (dht_handle_data_line_edge s level now).1 = s ∧
      (dht_handle_data_line_edge s level now).2 = false) := by
  refine ⟨fun s => ⟨rfl, by norm_num [dht_init, DHT_NO_DATA_AVAILABLE]⟩,
    fun s => ⟨rfl, by norm_num [dht_abort_read, DhtStatus.toC]⟩, ?_, ?_, ?_⟩
  · intro s arrivals
    simp only [dht_start_read]
    have hle := foldl_handle_cursor_le arrivals
      { dht_abort_read s with current_edge := 0 } (by norm_num)
    split
    · norm_num [dht_abort_read, DhtStatus.toC]
    · exact hle
  · exact handle_edge_cursor_le
  · intro s level now h84
    unfold dht_handle_data_line_edge
    rw [if_neg]
    · exact ⟨rfl, rfl⟩
    · simp only [DHT_EDGES_NUMBER]
      rintro (⟨h1, h2⟩ | ⟨h1, h2⟩) <;> omega

theorem c5_witness :
    (dht_init dht0).current_edge = -1 ∧
    (dht_handle_data_line_edge dhtScenario DhtDataLevel.low 0).1 = dhtScenario := by
  have h := c5_cursor_invariant
  exact ⟨(h.1 dht0).1, (h.2.2.2.2 dhtScenario DhtDataLevel.low 0 rfl).1⟩

/-- C6: dht_decode_byte refines the specification decode: for each of the
8 bits, most significant first, it examines the edge triplet (e0, e1, e2)
at the bit offset; a non-Low e0 or non-High e1 yields ErrSequenceInvalid,
a bit duration e2.timestamp - e1.timestamp above
DHT_DATA_BIT_1_DURATION_US_MAX yields ErrTimeout, and otherwise the bit is
1 exactly when the duration exceeds DHT_DATA_BIT_0_DURATION_US_MAX, the
bits accumulating MSB to LSB into the output byte. -/
theorem c6_decode_byte_refines_spec (edges : Nat → DhtEdge) :
    (if (dht_decode_byte edges).1 = DhtStatus.ok then
      Except.ok (dht_decode_byte edges).2
    else
      Except.error (dht_decode_byte edges).1) = dhtDecodeByteSpec edges := by
  cases hsg : dhtDecodeByteSpec edges with
  | ok rest =>
    have hgo := go_spec_ok edges 8 (by omega) 0 rest hsg
    rw [decode_eq_go, hgo, Nat.zero_or]
    rfl
  | error e =>
    have herr := go_spec_err edges 8 (by omega) 0 e hsg
    have hmem := specGo_error_mem edges 8 e hsg
    have hne : e ≠ DhtStatus.ok := by
      rcases hmem with h | h <;> subst h <;> decide
    rw [decode_eq_go, herr, if_neg hne]

theorem c6_witness :
    dhtDecodeByteSpec (window dhtScenario 2) = Except.ok 44 :=
  (c6_decode_byte_refines_spec (window dhtScenario 2)).symm.trans (by rfl)

lemma and_255_eq_mod (x : Nat) : x &&& 255 = x % 256 := by
  have h := Nat.and_pow_two_sub_one_eq_mod x 8
  norm_num at h
  exact h

/-- C1: For every captured timeline of exactly 84 edges (cursor at
capacity) that follows the documented level/duration pattern in all five
protocol byte windows - each data bit a Low edge then a High edge whose
high duration is at most DHT_DATA_BIT_1_DURATION_US_MAX, at most
DHT_DATA_BIT_0_DURATION_US_MAX meaning bit 0 and longer meaning bit 1 -
and whose checksum byte encodes the documented modulo-256 sum of the four
data bytes, dht_get_data returns DHT_OK and fills the output with the
humidity and temperature integral bytes decoded MSB first from their
fixed windows, both decimal fields 0, and the crc byte equal to that
modulo-256 sum. The witness instantiates the documented scenario with
humidity integral 44, temperature integral 25 and checksum 69. -/
theorem c1_valid_timeline_decodes (s : Dht) (now : Nat) (data0 : DhtData)
    (h84 : s.current_edge = 84)
    (hv : ∀ off ∈ ([2, 18, 34, 50, 66] : List Int), windowOk (window s off))
    (hcrc : byteFromWindow (window s 66) =
      (byteFromWindow (window s 2) + 0 + byteFromWindow (window s 34) + 0) % 256) :
    dht_get_data s now data0 =
      (DhtStatus.ok,
        { humidity_integral := byteFromWindow (window s 2)
          humidity_decimal := 0
          temperature_integral := byteFromWindow (window s 34)
          temperature_decimal := 0
          crc := (byteFromWindow (window s 2) + 0 +
            byteFromWindow (window s 34) + 0) % 256 }) := by
  have hw2 : windowOk (window s 2) := hv 2 (by simp)
  have hw34 : windowOk (window s 34) := hv 34 (by simp)
  have hw66 : windowOk (window s 66) := hv 66 (by simp)
  simp only [dht_get_data, DHT_INTEGRAL_RH_EDGES_INDEX, DHT_INTEGRAL_T_EDGES_INDEX,
    DHT_CHECKSUM_EDGES_INDEX]
  rw [check_status_dataReady s now h84]
  simp only [ne_eq, not_true_eq_false, if_false, ite_false, if_neg]
  rw [decode_ok_of_windowOk _ hw2, decode_ok_of_windowOk _ hw34,
    decode_ok_of_windowOk _ hw66]
  simp only [dht_calculate_data_crc, and_255_eq_mod]
  rw [hcrc]
  simp

/-- C7: once the humidity and temperature integral bytes decode
successfully, the result of dht_get_data is decided solely by the
comparison of the computed modulo-256 checksum against the decoded crc
byte - ErrCrc on mismatch, DHT_OK on match - regardless of the status the
checksum-byte decode itself reported: that status is assigned in the C
source but never examined, so it alone never causes an early return
before the comparison. The witness corrupts the checksum window so its
decode fails, yet the call still returns ErrCrc from the comparison. -/
theorem c7_crc_checked_despite_decode_status (s : Dht) (now : Nat)
    (data0 : DhtData) (h84 : s.current_edge = 84)
    (hw2 : windowOk (window s 2)) (hw34 : windowOk (window s 34)) :
    (dht_get_data s now data0).1 =
      if (byteFromWindow (window s 2) + 0 + byteFromWindow (window s 34) + 0) % 256 =
          (dht_decode_byte (window s 66)).2 then
        DhtStatus.ok
      else
        DhtStatus.errCrc := by
  simp only [dht_get_data, DHT_INTEGRAL_RH_EDGES_INDEX, DHT_INTEGRAL_T_EDGES_INDEX,
    DHT_CHECKSUM_EDGES_INDEX]
  rw [check_status_dataReady s now h84]
  simp only [ne_eq, not_true_eq_false, if_false, ite_false, if_neg]
  rw [decode_ok_of_windowOk _ hw2, decode_ok_of_windowOk _ hw34]
  simp only [dht_calculate_data_crc, and_255_eq_mod]
  simp
  split <;> simp_all

theorem c7_witness :
    (dht_get_data (corrupt dhtScenario 66) 0 dhtData0).1 = DhtStatus.errCrc :=
  (c7_crc_checked_despite_decode_status (corrupt dhtScenario 66) 0 dhtData0 rfl
    (by decide) (by decide)).trans (by decide)

/-- C8 counterexample: the claim states that flipping one expected-Low
edge to High in any of the five protocol byte windows makes dht_get_data
return ErrSequenceInvalid. The humidity-decimal window at offset 18 is
never decoded (its decode call is commented out in the C source and the
field is fixed at 0), so corrupting its first expected-Low edge - the one
at buffer index 18, with every other window fully well-formed and the
checksum consistent - still yields DHT_OK, not ErrSequenceInvalid. -/
theorem c8_counterexample :
    ((corrupt dhtScenario 18).edges 18).level = DhtDataLevel.high ∧
    (corrupt dhtScenario 18).current_edge = 84 ∧
    windowOk (window (corrupt dhtScenario 18) 2) ∧
    windowOk (window (corrupt dhtScenario 18) 34) ∧
    windowOk (window (corrupt dhtScenario 18) 50) ∧
    windowOk (window (corrupt dhtScenario 18) 66) ∧
    (∀ k, k < 8 → 0 < k → tripletOkAt (window (corrupt dhtScenario 18) 18) k) ∧
    ((window (corrupt dhtScenario 18) 18) 1).level = DhtDataLevel.high ∧
    bitDur (window (corrupt dhtScenario 18) 18) 0 ≤ DHT_DATA_BIT_1_DURATION_US_MAX ∧
    dht_get_data (corrupt dhtScenario 18) 0 dhtData0 =
      (DhtStatus.ok,
        { humidity_integral := 44
          humidity_decimal := 0
          temperature_integral := 25
          temperature_decimal := 0
          crc := 69 }) ∧
    (dht_get_data (corrupt dhtScenario 18) 0 dhtData0).1 ≠
      DhtStatus.errSequenceInvalid := by
  decide

/-- C8 as amended: only for the two decoded integral windows - humidity
at offset 2 and temperature at offset 34 - does an expected-Low edge that
is actually High (with the preceding bits of that window and any window
decoded before it well-formed) make dht_get_data return
ErrSequenceInvalid. The decimal windows at offsets 18 and 50 are never
examined, and for the checksum window at offset 66 the decode status is
discarded, the result being decided by the checksum comparison instead
(see C7). -/
theorem c8_amended_decoded_windows (s : Dht) (now : Nat) (data0 : DhtData)
    (h84 : s.current_edge = 84) (w : Int) (kbad : Nat)
    (hw : w = 2 ∨ w = 34) (hk : kbad < 8)
    (hpre : ∀ j, j < kbad → tripletOkAt (window s w) j)
    (hprev : w = 34 → windowOk (window s 2))
    (hbad : (window s w (2 * kbad)).level = DhtDataLevel.high) :
    (dht_get_data s now data0).1 = DhtStatus.errSequenceInvalid := by
  rcases hw with hw | hw
  · subst hw
    have hd := decode_seqInvalid (window s 2) kbad hk hpre (by simp [hbad])
    rcases h2 : dht_decode_byte (window s 2) with ⟨st2, b2⟩
    rw [h2] at hd
    simp only at hd
    subst hd
    simp [dht_get_data, check_status_dataReady s now h84,
      DHT_INTEGRAL_RH_EDGES_INDEX, h2]
  · subst hw
    have h2ok := decode_ok_of_windowOk _ (hprev rfl)
    have hd := decode_seqInvalid (window s 34) kbad hk hpre (by simp [hbad])
    rcases h34 : dht_decode_byte (window s 34) with ⟨st34, b34⟩
    rw [h34] at hd
    simp only at hd
    subst hd
    simp [dht_get_data, check_status_dataReady s now h84,
      DHT_INTEGRAL_RH_EDGES_INDEX, DHT_INTEGRAL_T_EDGES_INDEX, h2ok, h34]

theorem c8_witness :
    (dht_get_data (corrupt dhtScenario 40) 0 dhtData0).1 =
      DhtStatus.errSequenceInvalid :=
  c8_amended_decoded_windows (corrupt dhtScenario 40) 0 dhtData0 rfl 34 3
    (Or.inr rfl) (by decide) (by decide) (fun _ => by decide) (by decide)

theorem c1_witness :
    dhtScenario.current_edge = 84 ∧
    dht_get_data dhtScenario 0 dhtData0 =
      (DhtStatus.ok,
        { humidity_integral := 44
          humidity_decimal := 0
          temperature_integral := 25
          temperature_decimal := 0
          crc := 69 }) :=
  ⟨rfl,
    (c1_valid_timeline_decodes dhtScenario 0 dhtData0 rfl (by decide)
      (by decide)).trans (by decide)⟩
